import Mathlib

/-!
Shallow embedding of `src/firmament/scheduler_integration.cc` (poseidon).

The file under study is a reconciliation loop: at startup it creates a
single coordinator resource in a resource catalog (`resource_map_`), then
repeatedly polls an external inventory for nodes and pods.  Each unseen
node is materialized as a `MACHINE` resource parented to the coordinator
and registered with the scheduler; each pod is bound to the address of the
first node of the current cycle's node list (if any).

Modelling choices:
* `ResourceID_t` is modelled as `String` (UUIDs are opaque strings here);
  `firmament::to_string` and `firmament::ResourceIDFromString` are the
  identity conversions.
* The catalog `ResourceMap_t` is an insertion-ordered association list
  (`List (ResourceID × ResourceStatus)`), so that insertion order and
  "no overwrite / no removal" are directly observable.
* External calls (`fs.RegisterResource`, `api_client.BindPodToNode`) and
  the `CreateResourceForNode` call itself are recorded in an event trace.
* `CHECK(InsertIfNotPresent(...))` aborting the process is modelled by
  `Option`: `none` is the aborted run.
* The results of the external polls `api_client.AllNodes()` /
  `api_client.AllPods()` are inputs of each cycle (`CycleInput`).
* The freshly generated coordinator id (`firmament::GenerateResourceID`)
  is a parameter of the run.
-/

/-- Resource identifiers (`firmament::ResourceID_t`), modelled as strings. -/
abbrev ResourceID := String

/-- The `firmament::to_string` conversion from a `ResourceID_t` to a string
(identity in this model). -/
def to_string (r : ResourceID) : String := r

/-- The `firmament::ResourceIDFromString` conversion (identity in this model). -/
def ResourceIDFromString (s : String) : ResourceID := s

/-- The two `ResourceDescriptor::ResourceType` enum values used by the file. -/
inductive ResourceType
  | RESOURCE_COORDINATOR
  | RESOURCE_MACHINE
deriving DecidableEq, Repr

/-- The `ResourceDescriptor::ResourceState` enum values relevant to the file;
`RESOURCE_UNKNOWN` is the proto default for an unset `state` field. -/
inductive ResourceState
  | RESOURCE_UNKNOWN
  | RESOURCE_IDLE
deriving DecidableEq, Repr

/-- The fields of the `ResourceDescriptor` proto message that the file sets or
reads: `uuid`, `type` and `state`. -/
structure ResourceDescriptor where
  uuid : String
  type : ResourceType
  state : ResourceState
deriving DecidableEq, Repr

/-- The fields of the `ResourceTopologyNodeDescriptor` proto message the file
uses: the owned `resource_desc` and the `parent_id` (proto default `""`). -/
structure ResourceTopologyNodeDescriptor where
  resource_desc : ResourceDescriptor
  parent_id : String
deriving DecidableEq, Repr

/-- `firmament::ResourceStatus`: descriptor plus topology node plus the
network endpoint `(host, port)`.  In the C++ the descriptor pointer aliases
`topology_node->mutable_resource_desc()`, so we store only the topology node
and read the descriptor through it. -/
structure ResourceStatus where
  topology_node : ResourceTopologyNodeDescriptor
  host : String
  port : Nat
deriving DecidableEq, Repr

/-- `ResourceStatus::descriptor()`. -/
def ResourceStatus.descriptor (rs : ResourceStatus) : ResourceDescriptor :=
  rs.topology_node.resource_desc

/-- `ResourceMap_t`: the resource catalog, modelled as an insertion-ordered
association list from `ResourceID` to `ResourceStatus`. -/
abbrev ResourceMap := List (ResourceID × ResourceStatus)

/-- `ContainsKey(*resource_map_, rid)`. -/
def ContainsKey (m : ResourceMap) (k : ResourceID) : Bool :=
  m.any (fun kv => kv.1 == k)

/-- `InsertIfNotPresent(resource_map_.get(), key, value)`: returns whether the
insertion happened together with the resulting map. -/
def InsertIfNotPresent (m : ResourceMap) (k : ResourceID) (v : ResourceStatus) :
    Bool × ResourceMap :=
  if ContainsKey m k then (false, m) else (true, m ++ [(k, v)])

/-- Catalog lookup (`FindOrNull` in the firmament map utilities). -/
def FindOrNull (m : ResourceMap) (k : ResourceID) : Option ResourceStatus :=
  List.lookup k m

/-- `CreateTopLevelResource` (scheduler_integration.cc:43-56).  The freshly
generated `ResourceID` (line 44, `firmament::GenerateResourceID()`) is passed
in as `res_id`; the `CHECK` on line 54 aborting the process is modelled by
returning `none`. -/
def CreateTopLevelResource (m : ResourceMap) (res_id : ResourceID) :
    Option (ResourceStatus × ResourceMap) :=
  let rd : ResourceDescriptor :=
    { uuid := to_string res_id
      type := ResourceType.RESOURCE_COORDINATOR
      state := ResourceState.RESOURCE_UNKNOWN }
  let rtnd : ResourceTopologyNodeDescriptor :=
    { resource_desc := rd, parent_id := "" }
  let rs : ResourceStatus := { topology_node := rtnd, host := "localhost", port := 0 }
  match InsertIfNotPresent m res_id rs with
  | (true, m2) => some (rs, m2)
  | (false, _) => none

/-- `CreateResourceForNode` (scheduler_integration.cc:58-74); the `CHECK` on
line 72 aborting the process is modelled by returning `none`. -/
def CreateResourceForNode (m : ResourceMap) (node_id parent_id : ResourceID) :
    Option (ResourceStatus × ResourceMap) :=
  let rd : ResourceDescriptor :=
    { uuid := to_string node_id
      type := ResourceType.RESOURCE_MACHINE
      state := ResourceState.RESOURCE_IDLE }
  let r : ResourceTopologyNodeDescriptor :=
    { resource_desc := rd, parent_id := to_string parent_id }
  let rs : ResourceStatus := { topology_node := r, host := "", port := 0 }
  match InsertIfNotPresent m node_id rs with
  | (true, m2) => some (rs, m2)
  | (false, _) => none

/-- Observable calls made by the main loop: the `CreateResourceForNode` call
(line 111), the `fs.RegisterResource(rs->mutable_topology_node(), ...)` call
(line 113), and the `api_client.BindPodToNode(p, addr)` call (line 127). -/
inductive Event
  | createRes (node_id parent_id : ResourceID)
  | registerRes (rtnd : ResourceTopologyNodeDescriptor)
  | bindPod (pod addr : String)
deriving DecidableEq, Repr

/-- Whether an event is a pod-binding call. -/
def Event.isBind : Event → Bool
  | .bindPod _ _ => true
  | _ => false

/-- The input of one poll cycle: the result of `api_client.AllNodes()`
(pairs of external id and endpoint address) and of `api_client.AllPods()`. -/
structure CycleInput where
  nodes : List (String × String)
  pods : List String
deriving DecidableEq, Repr

/-- The mutable state of the main loop: the resource catalog plus the trace
of observable calls issued so far. -/
structure LoopState where
  resource_map : ResourceMap
  trace : List Event
deriving DecidableEq, Repr

/-- The node-polling phase of one cycle (scheduler_integration.cc:103-116):
for each discovered node, if its id is not yet in the catalog, create a
resource for it and register it with the scheduler.  (`if (!nodes.empty())`
around the loop is semantically the same as iterating the empty list.)
`none` models the process aborting inside `CreateResourceForNode`. -/
def pollNodes (toplevel_res_id : ResourceID) (st : LoopState) :
    List (String × String) → Option LoopState
  | [] => some st
  | n :: rest =>
    let rid := ResourceIDFromString n.1
    if ContainsKey st.resource_map rid then
      pollNodes toplevel_res_id st rest
    else
      match CreateResourceForNode st.resource_map rid toplevel_res_id with
      | none => none
      | some (rs, m2) =>
        pollNodes toplevel_res_id
          { resource_map := m2
            trace := st.trace ++
              [Event.createRes rid toplevel_res_id,
               Event.registerRes rs.topology_node] } rest

/-- The pod-polling phase of one cycle (scheduler_integration.cc:119-130):
for each pod, if this cycle's node list is non-empty, bind the pod to the
first node's address (`nodes[0].second`). -/
def pollPods (nodes : List (String × String)) (st : LoopState) :
    List String → LoopState
  | [] => st
  | p :: rest =>
    let st2 :=
      match nodes with
      | [] => st
      | n0 :: _ => { st with trace := st.trace ++ [Event.bindPod p n0.2] }
    pollPods nodes st2 rest

/-- One iteration of the main `while (true)` loop (lines 101-133). -/
def runCycle (toplevel_res_id : ResourceID) (st : LoopState) (inp : CycleInput) :
    Option LoopState :=
  match pollNodes toplevel_res_id st inp.nodes with
  | none => none
  | some st1 => some (pollPods inp.nodes st1 inp.pods)

/-- A finite number of iterations of the main loop, fed by the given list of
per-cycle poll results. -/
def runCycles (toplevel_res_id : ResourceID) (st : LoopState) :
    List CycleInput → Option LoopState
  | [] => some st
  | c :: rest =>
    match runCycle toplevel_res_id st c with
    | none => none
    | some st1 => runCycles toplevel_res_id st1 rest

/-- The whole program (`main`, lines 76-134) run for finitely many cycles:
startup creates the top-level resource in the empty catalog (lines 83-88),
then the loop processes each cycle's poll results.  `tl_res_id` is the
coordinator id produced by `firmament::GenerateResourceID()`. -/
def run (tl_res_id : ResourceID) (inputs : List CycleInput) : Option LoopState :=
  match CreateTopLevelResource [] tl_res_id with
  | none => none
  | some (rs, m) =>
    let toplevel_res_id := ResourceIDFromString rs.descriptor.uuid
    runCycles toplevel_res_id { resource_map := m, trace := [] } inputs

/-- The `ResourceStatus` value built by `CreateTopLevelResource` for a given
generated id. -/
def coordStatus (res_id : ResourceID) : ResourceStatus :=
  { topology_node :=
      { resource_desc :=
          { uuid := to_string res_id
            type := ResourceType.RESOURCE_COORDINATOR
            state := ResourceState.RESOURCE_UNKNOWN }
        parent_id := "" }
    host := "localhost"
    port := 0 }

/-- The `ResourceStatus` value built by `CreateResourceForNode`. -/
def machineStatus (node_id parent_id : ResourceID) : ResourceStatus :=
  { topology_node :=
      { resource_desc :=
          { uuid := to_string node_id
            type := ResourceType.RESOURCE_MACHINE
            state := ResourceState.RESOURCE_IDLE }
        parent_id := to_string parent_id }
    host := ""
    port := 0 }

/-- The loop state right after startup (coordinator inserted, empty trace). -/
def startState (tl : ResourceID) : LoopState :=
  { resource_map := [(tl, coordStatus tl)], trace := [] }

/-- The bind events issued by the pod-polling phase of one cycle. -/
def bindEvts (nodes : List (String × String)) (pods : List String) : List Event :=
  match nodes with
  | [] => []
  | n0 :: _ => pods.map (fun p => Event.bindPod p n0.2)

/-- Whether an event is the `CreateResourceForNode` call for key `k`. -/
def isCreateFor (k : ResourceID) : Event → Bool
  | .createRes nid _ => nid == k
  | _ => false

/-- Whether an event is the scheduler registration call for the resource whose
descriptor uuid is the stringified `k`. -/
def isRegisterFor (k : ResourceID) : Event → Bool
  | .registerRes r => r.resource_desc.uuid == to_string k
  | _ => false

/-- Number of `CreateResourceForNode` calls for key `k` in a trace. -/
def countCreate (tr : List Event) (k : ResourceID) : Nat :=
  tr.countP (isCreateFor k)

/-- Number of scheduler registration calls for key `k` in a trace. -/
def countRegister (tr : List Event) (k : ResourceID) : Nat :=
  tr.countP (isRegisterFor k)

/-- Number of catalog entries keyed by `k`. -/
def countKey (m : ResourceMap) (k : ResourceID) : Nat :=
  m.countP (fun kv => kv.1 == k)

/-! ### Basic equations for the catalog operations -/

theorem CreateResourceForNode_eq (m : ResourceMap) (nid pid : ResourceID) :
    CreateResourceForNode m nid pid =
      if ContainsKey m nid then none
      else some (machineStatus nid pid, m ++ [(nid, machineStatus nid pid)]) := by
  unfold CreateResourceForNode InsertIfNotPresent
  by_cases h : ContainsKey m nid
  · simp [h, machineStatus]
  · simp [h, machineStatus]

theorem CreateTopLevelResource_eq (m : ResourceMap) (i : ResourceID) :
    CreateTopLevelResource m i =
      if ContainsKey m i then none
      else some (coordStatus i, m ++ [(i, coordStatus i)]) := by
  unfold CreateTopLevelResource InsertIfNotPresent
  by_cases h : ContainsKey m i
  · simp [h, coordStatus]
  · simp [h, coordStatus]

theorem ContainsKey_iff (m : ResourceMap) (k : ResourceID) :
    ContainsKey m k = true ↔ k ∈ m.map Prod.fst := by
  simp [ContainsKey, List.any_eq_true, List.mem_map]

theorem ContainsKey_append_left (m d : ResourceMap) (k : ResourceID)
    (h : ContainsKey m k = true) : ContainsKey (m ++ d) k = true := by
  simp [ContainsKey, List.any_append] at h ⊢
  exact Or.inl h

theorem ContainsKey_append_self (m : ResourceMap) (k : ResourceID)
    (v : ResourceStatus) : ContainsKey (m ++ [(k, v)]) k = true := by
  simp [ContainsKey, List.any_append]

theorem countKey_append (m d : ResourceMap) (k : ResourceID) :
    countKey (m ++ d) k = countKey m k + countKey d k := by
  simp [countKey, List.countP_append]

theorem countKey_single (nid k : ResourceID) (v : ResourceStatus) :
    countKey [(nid, v)] k = if nid = k then 1 else 0 := by
  simp [countKey, List.countP_cons]

theorem countKey_eq_one_of_mem (m : ResourceMap) (k : ResourceID)
    (hnd : (m.map Prod.fst).Nodup) (hc : ContainsKey m k = true) :
    countKey m k = 1 := by
  have hk : k ∈ m.map Prod.fst := (ContainsKey_iff m k).1 hc
  have h1 : countKey m k = (m.map Prod.fst).count k := by
    simp [countKey, List.count, List.countP_map, Function.comp_def]
  rw [h1]
  exact List.count_eq_one_of_mem hnd hk

/-! ### Event-count equations -/

theorem countCreate_append (t1 t2 : List Event) (k : ResourceID) :
    countCreate (t1 ++ t2) k = countCreate t1 k + countCreate t2 k := by
  simp [countCreate, List.countP_append]

theorem countRegister_append (t1 t2 : List Event) (k : ResourceID) :
    countRegister (t1 ++ t2) k = countRegister t1 k + countRegister t2 k := by
  simp [countRegister, List.countP_append]

theorem countCreate_newNodeEvts (nid tl k : ResourceID) :
    countCreate [Event.createRes nid tl,
                 Event.registerRes (machineStatus nid tl).topology_node] k =
      if nid = k then 1 else 0 := by
  simp [countCreate, List.countP_cons, isCreateFor]

theorem countRegister_newNodeEvts (nid tl k : ResourceID) :
    countRegister [Event.createRes nid tl,
                   Event.registerRes (machineStatus nid tl).topology_node] k =
      if nid = k then 1 else 0 := by
  simp [countRegister, List.countP_cons, isRegisterFor, machineStatus, to_string]

theorem countCreate_bindEvts (tr : List Event) (nodes : List (String × String))
    (pods : List String) (k : ResourceID) :
    countCreate (tr ++ bindEvts nodes pods) k = countCreate tr k := by
  rw [countCreate_append]
  have h : countCreate (bindEvts nodes pods) k = 0 := by
    cases nodes with
    | nil => simp [bindEvts, countCreate]
    | cons n0 rest =>
      simp [bindEvts, countCreate, List.countP_map, Function.comp_def, isCreateFor]
  omega

theorem countRegister_bindEvts (tr : List Event) (nodes : List (String × String))
    (pods : List String) (k : ResourceID) :
    countRegister (tr ++ bindEvts nodes pods) k = countRegister tr k := by
  rw [countRegister_append]
  have h : countRegister (bindEvts nodes pods) k = 0 := by
    cases nodes with
    | nil => simp [bindEvts, countRegister]
    | cons n0 rest =>
      simp [bindEvts, countRegister, List.countP_map, Function.comp_def, isRegisterFor]
  omega

/-! ### The loop invariant -/

/-- Invariant of the reconciliation loop, relative to the coordinator id `tl`:
the catalog is the coordinator entry followed by machine entries; keys are
unique; the trace carries exactly one create and one register call per
machine entry and none for the coordinator. -/
structure LoopInv (tl : ResourceID) (st : LoopState) : Prop where
  shape : ∃ rest, st.resource_map = (tl, coordStatus tl) :: rest ∧
    ∀ kv ∈ rest, kv.1 ≠ tl ∧ kv.2 = machineStatus kv.1 tl
  nodup : (st.resource_map.map Prod.fst).Nodup
  create_tl : countCreate st.trace tl = 0
  create_eq : ∀ k, k ≠ tl → countCreate st.trace k = countKey st.resource_map k
  reg_eq : ∀ k, countRegister st.trace k = countCreate st.trace k

theorem Inv_startState (tl : ResourceID) : LoopInv tl (startState tl) := by
  refine ⟨⟨[], rfl, by simp⟩, by simp [startState], by simp [countCreate, startState], ?_, ?_⟩
  · intro k hk
    simp [countCreate, startState, countKey, List.countP_cons, Ne.symm hk]
  · intro k
    simp [countCreate, countRegister, startState]

theorem Inv_contains_tl (tl : ResourceID) (st : LoopState) (h : LoopInv tl st) :
    ContainsKey st.resource_map tl = true := by
  obtain ⟨rest, hm, _⟩ := h.shape
  rw [hm]
  simp [ContainsKey]

theorem Inv_insert (tl : ResourceID) (st : LoopState) (nid : ResourceID)
    (hc : ContainsKey st.resource_map nid = false) (h : LoopInv tl st) :
    LoopInv tl { resource_map := st.resource_map ++ [(nid, machineStatus nid tl)],
                 trace := st.trace ++
                   [Event.createRes nid tl,
                    Event.registerRes (machineStatus nid tl).topology_node] } := by
  have hne : nid ≠ tl := by
    intro he
    rw [he] at hc
    rw [Inv_contains_tl tl st h] at hc
    cases hc
  have hnotmem : nid ∉ st.resource_map.map Prod.fst := by
    intro hmem
    rw [← ContainsKey_iff] at hmem
    rw [hmem] at hc
    cases hc
  obtain ⟨rest, hm, hrest⟩ := h.shape
  refine ⟨⟨rest ++ [(nid, machineStatus nid tl)], ?_, ?_⟩, ?_, ?_, ?_, ?_⟩
  · simp [hm]
  · intro kv hkv
    rcases List.mem_append.1 hkv with hold | hnew
    · exact hrest kv hold
    · rcases List.mem_singleton.1 hnew with rfl
      exact ⟨hne, rfl⟩
  · simp only [List.map_append]
    rw [List.nodup_append]
    refine ⟨h.nodup, by simp, ?_⟩
    intro a ha hb
    simp at hb
    rw [hb] at ha
    exact hnotmem ha
  · simp only [countCreate_append, countCreate_newNodeEvts]
    rw [h.create_tl, if_neg hne]
  · intro k hk
    simp only [countCreate_append, countCreate_newNodeEvts, countKey_append,
      countKey_single]
    rw [h.create_eq k hk]
  · intro k
    simp only [countCreate_append, countRegister_append, countCreate_newNodeEvts,
      countRegister_newNodeEvts]
    rw [h.reg_eq k]

/-! ### Loop-phase lemmas -/

theorem pollNodes_step (tl : ResourceID) (st : LoopState) (n : String × String)
    (rest : List (String × String)) :
    pollNodes tl st (n :: rest) =
      if ContainsKey st.resource_map n.1 then pollNodes tl st rest
      else
        pollNodes tl
          { resource_map := st.resource_map ++ [(n.1, machineStatus n.1 tl)],
            trace := st.trace ++
              [Event.createRes n.1 tl,
               Event.registerRes (machineStatus n.1 tl).topology_node] } rest := by
  by_cases h : ContainsKey st.resource_map n.1
  · simp [pollNodes, ResourceIDFromString, h]
  · simp [pollNodes, ResourceIDFromString, h, CreateResourceForNode_eq]

/-- Master lemma for the node-polling phase: the catalog only grows by
appending, the new trace events are not bind calls, every polled node's key
ends up present, and the loop invariant is preserved. -/
theorem pollNodes_spec (tl : ResourceID) (nodes : List (String × String)) :
    ∀ st st' : LoopState, pollNodes tl st nodes = some st' →
      (∃ added, st'.resource_map = st.resource_map ++ added) ∧
      (∃ evts, st'.trace = st.trace ++ evts ∧ ∀ e ∈ evts, e.isBind = false) ∧
      (∀ n ∈ nodes, ContainsKey st'.resource_map n.1 = true) ∧
      (LoopInv tl st → LoopInv tl st') := by
  induction nodes with
  | nil =>
    intro st st' h
    simp [pollNodes] at h
    subst h
    exact ⟨⟨[], by simp⟩, ⟨[], by simp⟩, by simp, fun hI => hI⟩
  | cons n rest ih =>
    intro st st' h
    rw [pollNodes_step] at h
    by_cases hc : ContainsKey st.resource_map n.1
    · rw [if_pos hc] at h
      obtain ⟨⟨added, ha⟩, he, hcont, hinv⟩ := ih st st' h
      refine ⟨⟨added, ha⟩, he, ?_, hinv⟩
      intro x hx
      rcases List.mem_cons.1 hx with rfl | hxr
      · rw [ha]
        exact ContainsKey_append_left _ _ _ hc
      · exact hcont x hxr
    · rw [if_neg hc] at h
      obtain ⟨⟨added, ha⟩, ⟨evts, he, hb⟩, hcont, hinv⟩ := ih _ st' h
      refine ⟨⟨(n.1, machineStatus n.1 tl) :: added, by simpa using ha⟩,
        ⟨Event.createRes n.1 tl ::
           Event.registerRes (machineStatus n.1 tl).topology_node :: evts,
         by simpa using he, ?_⟩, ?_, ?_⟩
      · intro e hee
        rcases List.mem_cons.1 hee with rfl | hee
        · rfl
        rcases List.mem_cons.1 hee with rfl | hee
        · rfl
        · exact hb e hee
      · intro x hx
        rcases List.mem_cons.1 hx with rfl | hxr
        · rw [ha]
          exact ContainsKey_append_left _ _ _ (ContainsKey_append_self _ _ _)
        · exact hcont x hxr
      · intro hI
        exact hinv (Inv_insert tl st n.1 (Bool.eq_false_iff.2 hc) hI)

theorem pollPods_eq (nodes : List (String × String)) (pods : List String) :
    ∀ st : LoopState, pollPods nodes st pods =
      { resource_map := st.resource_map, trace := st.trace ++ bindEvts nodes pods } := by
  induction pods with
  | nil => intro st; cases nodes <;> simp [pollPods, bindEvts]
  | cons p rest ih =>
    intro st
    cases nodes with
    | nil => simp [pollPods, bindEvts, ih]
    | cons n0 ns => simp [pollPods, bindEvts, ih]

theorem bindEvts_isBind (nodes : List (String × String)) (pods : List String) :
    ∀ e ∈ bindEvts nodes pods, e.isBind = true := by
  intro e he
  cases nodes with
  | nil => simp [bindEvts] at he
  | cons n0 ns =>
    simp [bindEvts] at he
    obtain ⟨p, hp, rfl⟩ := he
    rfl

theorem loopInv_pollPods (tl : ResourceID) (nodes : List (String × String))
    (pods : List String) (st : LoopState) (h : LoopInv tl st) :
    LoopInv tl (pollPods nodes st pods) := by
  rw [pollPods_eq]
  refine ⟨by simpa using h.shape, by simpa using h.nodup, ?_, ?_, ?_⟩
  · simp only [countCreate_bindEvts]
    exact h.create_tl
  · intro k hk
    simp only [countCreate_bindEvts]
    exact h.create_eq k hk
  · intro k
    simp only [countCreate_bindEvts, countRegister_bindEvts]
    exact h.reg_eq k

/-! ### Cycle-level lemmas -/

theorem runCycle_cases (tl : ResourceID) (st : LoopState) (inp : CycleInput)
    (st' : LoopState) (h : runCycle tl st inp = some st') :
    ∃ st1, pollNodes tl st inp.nodes = some st1 ∧
      st' = pollPods inp.nodes st1 inp.pods := by
  unfold runCycle at h
  cases hp : pollNodes tl st inp.nodes with
  | none => rw [hp] at h; cases h
  | some st1 =>
    rw [hp] at h
    exact ⟨st1, rfl, by cases h; rfl⟩

theorem runCycle_map_extends (tl : ResourceID) (st : LoopState) (inp : CycleInput)
    (st' : LoopState) (h : runCycle tl st inp = some st') :
    ∃ added, st'.resource_map = st.resource_map ++ added := by
  obtain ⟨st1, hp, rfl⟩ := runCycle_cases tl st inp st' h
  obtain ⟨⟨added, ha⟩, _, _, _⟩ := pollNodes_spec tl inp.nodes st st1 hp
  rw [pollPods_eq]
  exact ⟨added, ha⟩

theorem runCycle_inv (tl : ResourceID) (st : LoopState) (inp : CycleInput)
    (st' : LoopState) (h : runCycle tl st inp = some st') (hI : LoopInv tl st) :
    LoopInv tl st' := by
  obtain ⟨st1, hp, rfl⟩ := runCycle_cases tl st inp st' h
  obtain ⟨_, _, _, hinv⟩ := pollNodes_spec tl inp.nodes st st1 hp
  exact loopInv_pollPods tl inp.nodes inp.pods st1 (hinv hI)

theorem runCycle_contains (tl : ResourceID) (st : LoopState) (inp : CycleInput)
    (st' : LoopState) (h : runCycle tl st inp = some st') :
    ∀ n ∈ inp.nodes, ContainsKey st'.resource_map n.1 = true := by
  obtain ⟨st1, hp, rfl⟩ := runCycle_cases tl st inp st' h
  obtain ⟨_, _, hcont, _⟩ := pollNodes_spec tl inp.nodes st st1 hp
  intro n hn
  rw [pollPods_eq]
  exact hcont n hn

/-! ### Run-level lemmas -/

theorem runCycles_inv (tl : ResourceID) (inputs : List CycleInput) :
    ∀ st st' : LoopState, runCycles tl st inputs = some st' →
      LoopInv tl st → LoopInv tl st' := by
  induction inputs with
  | nil =>
    intro st st' h
    simp [runCycles] at h
    subst h
    exact id
  | cons c rest ih =>
    intro st st' h hI
    unfold runCycles at h
    cases hc : runCycle tl st c with
    | none => rw [hc] at h; cases h
    | some st1 =>
      rw [hc] at h
      exact ih st1 st' h (runCycle_inv tl st c st1 hc hI)

theorem runCycles_map_extends (tl : ResourceID) (inputs : List CycleInput) :
    ∀ st st' : LoopState, runCycles tl st inputs = some st' →
      ∃ added, st'.resource_map = st.resource_map ++ added := by
  induction inputs with
  | nil =>
    intro st st' h
    simp [runCycles] at h
    subst h
    exact ⟨[], by simp⟩
  | cons c rest ih =>
    intro st st' h
    unfold runCycles at h
    cases hc : runCycle tl st c with
    | none => rw [hc] at h; cases h
    | some st1 =>
      rw [hc] at h
      obtain ⟨a1, h1⟩ := runCycle_map_extends tl st c st1 hc
      obtain ⟨a2, h2⟩ := ih st1 st' h
      exact ⟨a1 ++ a2, by rw [h2, h1, List.append_assoc]⟩

theorem runCycles_contains_mono (tl : ResourceID) (inputs : List CycleInput)
    (st st' : LoopState) (h : runCycles tl st inputs = some st')
    (k : ResourceID) (hk : ContainsKey st.resource_map k = true) :
    ContainsKey st'.resource_map k = true := by
  obtain ⟨added, ha⟩ := runCycles_map_extends tl inputs st st' h
  rw [ha]
  exact ContainsKey_append_left _ _ _ hk

theorem runCycles_observed (tl : ResourceID) (x : String) (inputs : List CycleInput) :
    ∀ st st' : LoopState, runCycles tl st inputs = some st' →
      inputs ≠ [] →
      (∀ c ∈ inputs, c.nodes.any (fun n => n.1 == x) = true) →
      ContainsKey st'.resource_map x = true := by
  induction inputs with
  | nil => intro st st' _ hne _; exact absurd rfl hne
  | cons c rest ih =>
    intro st st' h _ hobs
    unfold runCycles at h
    cases hc : runCycle tl st c with
    | none => rw [hc] at h; cases h
    | some st1 =>
      rw [hc] at h
      have hx : ∃ n ∈ c.nodes, n.1 = x := by
        have := hobs c (List.mem_cons_self c rest)
        simpa [List.any_eq_true] using this
      obtain ⟨n, hn, hnx⟩ := hx
      have h1 : ContainsKey st1.resource_map x = true := by
        rw [← hnx]
        exact runCycle_contains tl st c st1 hc n hn
      exact runCycles_contains_mono tl rest st1 st' h x h1

theorem run_eq (tl : ResourceID) (inputs : List CycleInput) :
    run tl inputs = runCycles tl (startState tl) inputs := rfl

theorem run_inv (tl : ResourceID) (inputs : List CycleInput) (st : LoopState)
    (h : run tl inputs = some st) : LoopInv tl st := by
  rw [run_eq] at h
  exact runCycles_inv tl inputs (startState tl) st h (Inv_startState tl)

/-! ### Totality: the guarded loop never reaches the fatal branch -/

theorem pollNodes_isSome (tl : ResourceID) (nodes : List (String × String)) :
    ∀ st : LoopState, (pollNodes tl st nodes).isSome = true := by
  induction nodes with
  | nil => intro st; simp [pollNodes]
  | cons n rest ih =>
    intro st
    rw [pollNodes_step]
    by_cases hc : ContainsKey st.resource_map n.1
    · rw [if_pos hc]; exact ih st
    · rw [if_neg hc]; exact ih _

theorem runCycle_isSome (tl : ResourceID) (st : LoopState) (inp : CycleInput) :
    (runCycle tl st inp).isSome = true := by
  unfold runCycle
  cases hp : pollNodes tl st inp.nodes with
  | none =>
    have := pollNodes_isSome tl inp.nodes st
    rw [hp] at this
    cases this
  | some st1 => rfl

theorem runCycles_isSome (tl : ResourceID) (inputs : List CycleInput) :
    ∀ st : LoopState, (runCycles tl st inputs).isSome = true := by
  induction inputs with
  | nil => intro st; simp [runCycles]
  | cons c rest ih =>
    intro st
    unfold runCycles
    cases hc : runCycle tl st c with
    | none =>
      have := runCycle_isSome tl st c
      rw [hc] at this
      cases this
    | some st1 => exact ih st1

/-! ### Trace shape of one cycle -/

/-- In one cycle the trace grows by the node-phase events (never bind calls)
followed by the pod-phase bind calls. -/
theorem runCycle_trace_shape (tl : ResourceID) (st : LoopState) (inp : CycleInput)
    (st' : LoopState) (h : runCycle tl st inp = some st') :
    ∃ evts, (∀ e ∈ evts, e.isBind = false) ∧
      st'.trace = st.trace ++ evts ++ bindEvts inp.nodes inp.pods := by
  obtain ⟨st1, hp, rfl⟩ := runCycle_cases tl st inp st' h
  obtain ⟨_, ⟨evts, he, hb⟩, _, _⟩ := pollNodes_spec tl inp.nodes st st1 hp
  refine ⟨evts, hb, ?_⟩
  rw [pollPods_eq]
  simp [he]

/-- Every bind call in the trace of a run of finitely many cycles comes from
some cycle with a non-empty node list and targets that cycle's first node's
address (on a pod of that cycle). -/
theorem runCycles_bind_provenance (tl : ResourceID) (inputs : List CycleInput) :
    ∀ st st' : LoopState, runCycles tl st inputs = some st' →
      ∀ p a, Event.bindPod p a ∈ st'.trace →
        Event.bindPod p a ∈ st.trace ∨
        ∃ c ∈ inputs, ∃ n0 ns, c.nodes = n0 :: ns ∧ a = n0.2 ∧ p ∈ c.pods := by
  induction inputs with
  | nil =>
    intro st st' h p a hmem
    simp [runCycles] at h
    subst h
    exact Or.inl hmem
  | cons c rest ih =>
    intro st st' h p a hmem
    unfold runCycles at h
    cases hc : runCycle tl st c with
    | none => rw [hc] at h; cases h
    | some st1 =>
      rw [hc] at h
      rcases ih st1 st' h p a hmem with h1 | ⟨c2, hc2, hrest⟩
      · obtain ⟨evts, hb, htr⟩ := runCycle_trace_shape tl st c st1 hc
        rw [htr] at h1
        rcases List.mem_append.1 h1 with h2 | h2
        · rcases List.mem_append.1 h2 with h3 | h3
          · exact Or.inl h3
          · have := hb _ h3
            simp [Event.isBind] at this
        · cases hn : c.nodes with
          | nil => rw [hn] at h2; simp [bindEvts] at h2
          | cons n0 ns =>
            rw [hn] at h2
            simp only [bindEvts, List.mem_map] at h2
            obtain ⟨q, hq, heq⟩ := h2
            have h1 : q = p := by injection heq
            have h2x : n0.2 = a := by injection heq
            exact Or.inr ⟨c, List.mem_cons_self c rest, n0, ns, hn, h2x.symm, h1 ▸ hq⟩
      · exact Or.inr ⟨c2, List.mem_cons_of_mem c hc2, hrest⟩

/-! ### Claim theorems -/

/-- C1: idempotent discovery.  If an external node identifier `x` (distinct
from the freshly generated coordinator id) is observed in every one of the N
consecutive poll cycles of a run, then after all N cycles the catalog has
exactly one entry keyed by the ResourceID derived from `x`, and exactly one
`CreateResourceForNode` call and one scheduler `RegisterResource` call were
made for it; re-observation is a no-op. -/
theorem idempotent_discovery (tl : ResourceID) (inputs : List CycleInput)
    (x : String) (st : LoopState)
    (hne : inputs ≠ [])
    (hobs : ∀ c ∈ inputs, c.nodes.any (fun n => n.1 == x) = true)
    (hfresh : ResourceIDFromString x ≠ tl)
    (hrun : run tl inputs = some st) :
    countKey st.resource_map (ResourceIDFromString x) = 1 ∧
    countCreate st.trace (ResourceIDFromString x) = 1 ∧
    countRegister st.trace (ResourceIDFromString x) = 1 := by
  rw [run_eq] at hrun
  have hI : LoopInv tl st :=
    runCycles_inv tl inputs (startState tl) st hrun (Inv_startState tl)
  have hcont : ContainsKey st.resource_map x = true :=
    runCycles_observed tl x inputs (startState tl) st hrun hne hobs
  have h1 : countKey st.resource_map x = 1 :=
    countKey_eq_one_of_mem _ _ hI.nodup hcont
  have h2 : countCreate st.trace x = 1 := by
    rw [hI.create_eq x hfresh, h1]
  refine ⟨h1, h2, ?_⟩
  show countRegister st.trace x = 1
  rw [hI.reg_eq x, h2]

/-- Inputs of the witness run for C1: the same node observed in two
consecutive cycles. -/
def c1Inputs : List CycleInput :=
  [⟨[("n1", "a1")], []⟩, ⟨[("n1", "a1")], ["p1"]⟩]

/-- Final state of the witness run for C1. -/
def c1State : LoopState :=
  { resource_map := [("c0", coordStatus "c0"), ("n1", machineStatus "n1" "c0")],
    trace := [Event.createRes "n1" "c0",
              Event.registerRes (machineStatus "n1" "c0").topology_node,
              Event.bindPod "p1" "a1"] }

/-- Witness for C1 at a concrete two-cycle run. -/
theorem idempotent_discovery_witness :
    c1Inputs ≠ [] ∧
    (∀ c ∈ c1Inputs, c.nodes.any (fun n => n.1 == "n1") = true) ∧
    ResourceIDFromString "n1" ≠ "c0" ∧
    (countKey c1State.resource_map (ResourceIDFromString "n1") = 1 ∧
     countCreate c1State.trace (ResourceIDFromString "n1") = 1 ∧
     countRegister c1State.trace (ResourceIDFromString "n1") = 1) :=
  ⟨by decide, by decide, by decide,
   idempotent_discovery "c0" c1Inputs "n1" c1State (by decide) (by decide)
     (by decide) (by decide)⟩

/-- C2: single coordinator.  In every reachable state of the process the
catalog contains exactly one resource of type `RESOURCE_COORDINATOR`; it is
the first entry ever inserted (so it was created at startup, before any
`MACHINE` resource) and it is still present. -/
theorem single_coordinator (tl : ResourceID) (inputs : List CycleInput)
    (st : LoopState) (hrun : run tl inputs = some st) :
    st.resource_map.countP
        (fun kv => kv.2.descriptor.type == ResourceType.RESOURCE_COORDINATOR) = 1 ∧
    st.resource_map.head? = some (tl, coordStatus tl) ∧
    (coordStatus tl).descriptor.type = ResourceType.RESOURCE_COORDINATOR := by
  have hI := run_inv tl inputs st hrun
  obtain ⟨rest, hm, hrest⟩ := hI.shape
  have hz : rest.countP
      (fun kv => kv.2.descriptor.type == ResourceType.RESOURCE_COORDINATOR) = 0 := by
    rw [List.countP_eq_zero]
    intro kv hkv
    rw [(hrest kv hkv).2]
    simp [machineStatus, ResourceStatus.descriptor]
  refine ⟨?_, by rw [hm]; rfl, rfl⟩
  rw [hm, List.countP_cons, hz]
  simp [coordStatus, ResourceStatus.descriptor]

/-- Witness for C2 at the empty run (startup only). -/
theorem single_coordinator_witness :
    (startState "c0").resource_map.countP
        (fun kv => kv.2.descriptor.type == ResourceType.RESOURCE_COORDINATOR) = 1 ∧
    (startState "c0").resource_map.head? = some ("c0", coordStatus "c0") ∧
    (coordStatus "c0").descriptor.type = ResourceType.RESOURCE_COORDINATOR :=
  single_coordinator "c0" [] (startState "c0") (by decide)

/-- C3: tree validity.  Every `MACHINE` resource in any reachable catalog has
`parent_id` equal to the stringified coordinator id, and in every reachable
state (in particular at each machine's creation time) that id resolves in the
catalog to the coordinator entry, whose type is `RESOURCE_COORDINATOR`; so
the only parent link is machine-to-coordinator and the topology is a
two-level tree rooted at the coordinator. -/
theorem tree_validity (tl : ResourceID) (inputs : List CycleInput) (st : LoopState)
    (hrun : run tl inputs = some st) :
    (∀ kv ∈ st.resource_map,
       kv.2.descriptor.type = ResourceType.RESOURCE_MACHINE →
       kv.2.topology_node.parent_id = to_string tl) ∧
    (∀ (inputs2 : List CycleInput) (st2 : LoopState), run tl inputs2 = some st2 →
       FindOrNull st2.resource_map tl = some (coordStatus tl) ∧
       (coordStatus tl).descriptor.type = ResourceType.RESOURCE_COORDINATOR) := by
  have hI := run_inv tl inputs st hrun
  obtain ⟨rest, hm, hrest⟩ := hI.shape
  constructor
  · intro kv hkv hmach
    rw [hm] at hkv
    rcases List.mem_cons.1 hkv with rfl | hr
    · exfalso
      revert hmach
      simp [coordStatus, ResourceStatus.descriptor]
    · rw [(hrest kv hr).2]
      rfl
  · intro inputs2 st2 h2
    have hI2 := run_inv tl inputs2 st2 h2
    obtain ⟨rest2, hm2, _⟩ := hI2.shape
    refine ⟨?_, rfl⟩
    rw [hm2]
    simp [FindOrNull, List.lookup]

/-- Witness for C3 at a concrete one-node run. -/
theorem tree_validity_witness :
    (∀ kv ∈ (LoopState.mk
        [("c0", coordStatus "c0"), ("n1", machineStatus "n1" "c0")]
        [Event.createRes "n1" "c0",
         Event.registerRes (machineStatus "n1" "c0").topology_node]).resource_map,
       kv.2.descriptor.type = ResourceType.RESOURCE_MACHINE →
       kv.2.topology_node.parent_id = to_string "c0") ∧
    (∀ (inputs2 : List CycleInput) (st2 : LoopState), run "c0" inputs2 = some st2 →
       FindOrNull st2.resource_map "c0" = some (coordStatus "c0") ∧
       (coordStatus "c0").descriptor.type = ResourceType.RESOURCE_COORDINATOR) :=
  tree_validity "c0" [⟨[("n1", "10.0.0.1")], []⟩]
    (LoopState.mk
      [("c0", coordStatus "c0"), ("n1", machineStatus "n1" "c0")]
      [Event.createRes "n1" "c0",
       Event.registerRes (machineStatus "n1" "c0").topology_node])
    (by decide)

/-- C4: catalog insertion aborts the process (`CHECK` fails) if and only if
the key is already present, and since the reconciliation loop only calls
`CreateResourceForNode` after checking absence, the abort branch is
unreachable in any run of the program: the run never evaluates to `none`. -/
theorem insert_abort_iff_and_unreachable :
    (∀ (m : ResourceMap) (nid pid : ResourceID),
       (CreateResourceForNode m nid pid = none ↔ ContainsKey m nid = true)) ∧
    (∀ (tl : ResourceID) (inputs : List CycleInput),
       (run tl inputs).isSome = true) := by
  constructor
  · intro m nid pid
    rw [CreateResourceForNode_eq]
    by_cases h : ContainsKey m nid
    · simp [h]
    · simp [h]
  · intro tl inputs
    rw [run_eq]
    exact runCycles_isSome tl inputs (startState tl)

/-- C5: registration-before-binding ordering.  Within any single poll cycle,
the trace grows by the node-phase events first (creations and scheduler
registrations, never bind calls) and only then by the pod-binding calls, so
every `RegisterResource` call of a cycle occurs before any `BindPodToNode`
call of that cycle — in particular in cycles that discover both a new node
and a workload. -/
theorem registration_before_binding (tl : ResourceID) (st : LoopState)
    (inp : CycleInput) (st' : LoopState) (h : runCycle tl st inp = some st') :
    ∃ regs binds, st'.trace = st.trace ++ regs ++ binds ∧
      (∀ e ∈ regs, e.isBind = false) ∧ (∀ e ∈ binds, e.isBind = true) := by
  obtain ⟨evts, hb, htr⟩ := runCycle_trace_shape tl st inp st' h
  exact ⟨evts, bindEvts inp.nodes inp.pods, htr, hb, bindEvts_isBind _ _⟩

/-- Witness for C5 at a cycle that discovers one new node and one workload. -/
theorem registration_before_binding_witness :
    runCycle "c0" (startState "c0") ⟨[("n1", "a1")], ["p1"]⟩ =
      some (LoopState.mk
        [("c0", coordStatus "c0"), ("n1", machineStatus "n1" "c0")]
        [Event.createRes "n1" "c0",
         Event.registerRes (machineStatus "n1" "c0").topology_node,
         Event.bindPod "p1" "a1"]) ∧
    ∃ regs binds,
      (LoopState.mk
        [("c0", coordStatus "c0"), ("n1", machineStatus "n1" "c0")]
        [Event.createRes "n1" "c0",
         Event.registerRes (machineStatus "n1" "c0").topology_node,
         Event.bindPod "p1" "a1"]).trace = (startState "c0").trace ++ regs ++ binds ∧
      (∀ e ∈ regs, e.isBind = false) ∧ (∀ e ∈ binds, e.isBind = true) :=
  ⟨by decide,
   registration_before_binding "c0" (startState "c0") ⟨[("n1", "a1")], ["p1"]⟩
     (LoopState.mk
       [("c0", coordStatus "c0"), ("n1", machineStatus "n1" "c0")]
       [Event.createRes "n1" "c0",
        Event.registerRes (machineStatus "n1" "c0").topology_node,
        Event.bindPod "p1" "a1"]) (by decide)⟩

/-- C6: placeholder binding policy.  In each cycle the bind calls appended to
the trace are exactly one call per discovered workload when the cycle's node
list is non-empty — each targeting the address of the first node of that
cycle's node list, unconditionally (even for workloads already bound) — and
no bind call at all when the node list is empty. -/
theorem placeholder_binding_policy (tl : ResourceID) (st : LoopState)
    (inp : CycleInput) (st' : LoopState) (h : runCycle tl st inp = some st') :
    ∃ regs, (∀ e ∈ regs, e.isBind = false) ∧
      st'.trace = st.trace ++ regs ++
        (match inp.nodes with
         | [] => []
         | n0 :: _ => inp.pods.map (fun p => Event.bindPod p n0.2)) := by
  obtain ⟨evts, hb, htr⟩ := runCycle_trace_shape tl st inp st' h
  refine ⟨evts, hb, ?_⟩
  rw [htr]
  cases inp.nodes <;> rfl

/-- Witness for C6 at a cycle with zero nodes and one workload (Scenario D):
no bind call is issued. -/
theorem placeholder_binding_policy_witness :
    runCycle "c0" (startState "c0") ⟨[], ["p1"]⟩ = some (startState "c0") ∧
    ∃ regs, (∀ e ∈ regs, e.isBind = false) ∧
      (startState "c0").trace = (startState "c0").trace ++ regs ++
        (match ([] : List (String × String)) with
         | [] => []
         | n0 :: _ => List.map (fun p => Event.bindPod p n0.2) ["p1"]) :=
  ⟨by decide,
   placeholder_binding_policy "c0" (startState "c0") ⟨[], ["p1"]⟩
     (startState "c0") (by decide)⟩

/-- Decomposition of a failed key search over a cons cell. -/
theorem ContainsKey_cons_false (k1 : ResourceID) (v1 : ResourceStatus)
    (rest : ResourceMap) (k : ResourceID)
    (h : ContainsKey ((k1, v1) :: rest) k = false) :
    (k1 == k) = false ∧ ContainsKey rest k = false := by
  simp only [ContainsKey, List.any_cons, Bool.or_eq_false_iff] at h
  exact h

/-- Helper for C7: appending a fresh key to the catalog makes lookup of that
key return the appended value. -/
theorem FindOrNull_append_fresh (m : ResourceMap) (k : ResourceID)
    (v : ResourceStatus) (hc : ContainsKey m k = false) :
    FindOrNull (m ++ [(k, v)]) k = some v := by
  induction m with
  | nil => simp [FindOrNull, List.lookup_cons]
  | cons kv rest ih =>
    obtain ⟨k1, v1⟩ := kv
    obtain ⟨h1, h2⟩ := ContainsKey_cons_false k1 v1 rest k hc
    have h1x : (k == k1) = false := by
      rw [beq_eq_false_iff_ne] at h1 ⊢
      exact fun he => h1 he.symm
    rw [List.cons_append]
    simp only [FindOrNull, List.lookup_cons, h1x]
    exact ih h2

/-- C7: postcondition of `CreateResourceForNode`.  On any catalog not yet
containing `nid`, the call returns the `ResourceStatus` whose descriptor has
uuid the stringified `nid`, type `MACHINE`, state `IDLE`, whose topology
node's `parent_id` is the stringified `pid`, and the catalog afterwards maps
`nid` to exactly that status; moreover (Scenario B) a run whose single cycle
discovers one new node yields exactly that one machine entry and exactly one
create and one register call. -/
theorem create_resource_for_node_postcondition :
    (∀ (m : ResourceMap) (nid pid : ResourceID),
       ContainsKey m nid = false →
       CreateResourceForNode m nid pid =
         some (machineStatus nid pid, m ++ [(nid, machineStatus nid pid)]) ∧
       (machineStatus nid pid).descriptor.uuid = to_string nid ∧
       (machineStatus nid pid).descriptor.type = ResourceType.RESOURCE_MACHINE ∧
       (machineStatus nid pid).descriptor.state = ResourceState.RESOURCE_IDLE ∧
       (machineStatus nid pid).topology_node.parent_id = to_string pid ∧
       FindOrNull (m ++ [(nid, machineStatus nid pid)]) nid =
         some (machineStatus nid pid)) ∧
    (run "c0" [⟨[("n1", "10.0.0.1")], []⟩] =
       some (LoopState.mk
         [("c0", coordStatus "c0"), ("n1", machineStatus "n1" "c0")]
         [Event.createRes "n1" "c0",
          Event.registerRes (machineStatus "n1" "c0").topology_node]) ∧
     countKey [("c0", coordStatus "c0"), ("n1", machineStatus "n1" "c0")] "n1" = 1 ∧
     countRegister
       [Event.createRes "n1" "c0",
        Event.registerRes (machineStatus "n1" "c0").topology_node] "n1" = 1) := by
  constructor
  · intro m nid pid hc
    refine ⟨?_, rfl, rfl, rfl, rfl, FindOrNull_append_fresh m nid _ hc⟩
    rw [CreateResourceForNode_eq, if_neg (by simp [hc])]
  · exact ⟨by decide, by decide, by decide⟩

/-- Witness for C7 at the empty catalog. -/
theorem create_resource_for_node_postcondition_witness :
    ContainsKey [] "n1" = false ∧
    (CreateResourceForNode [] "n1" "c0" =
       some (machineStatus "n1" "c0", [("n1", machineStatus "n1" "c0")]) ∧
     (machineStatus "n1" "c0").descriptor.uuid = to_string "n1" ∧
     (machineStatus "n1" "c0").descriptor.type = ResourceType.RESOURCE_MACHINE ∧
     (machineStatus "n1" "c0").descriptor.state = ResourceState.RESOURCE_IDLE ∧
     (machineStatus "n1" "c0").topology_node.parent_id = to_string "c0" ∧
     FindOrNull [("n1", machineStatus "n1" "c0")] "n1" =
       some (machineStatus "n1" "c0")) :=
  ⟨by decide,
   create_resource_for_node_postcondition.1 [] "n1" "c0" (by decide)⟩

/-- C8: frame property.  A cycle whose node list is empty leaves the whole
loop state (catalog and trace) unchanged — in particular no entry is added
and no registration or bind call is issued when the workload list is also
empty — and across one cycle or any number of cycles the catalog only ever
grows by appending new entries: nothing is overwritten or removed. -/
theorem catalog_frame (tl : ResourceID) :
    (∀ (st : LoopState) (pods : List String) (st' : LoopState),
       runCycle tl st ⟨[], pods⟩ = some st' → st' = st) ∧
    (∀ (st : LoopState) (inp : CycleInput) (st' : LoopState),
       runCycle tl st inp = some st' →
       ∃ added, st'.resource_map = st.resource_map ++ added) ∧
    (∀ (st : LoopState) (inputs : List CycleInput) (st' : LoopState),
       runCycles tl st inputs = some st' →
       ∃ added, st'.resource_map = st.resource_map ++ added) := by
  refine ⟨?_, ?_, ?_⟩
  · intro st pods st' h
    obtain ⟨st1, hp, hst⟩ := runCycle_cases tl st ⟨[], pods⟩ st' h
    simp [pollNodes] at hp
    subst hp
    rw [hst, pollPods_eq]
    simp [bindEvts]
  · intro st inp st' h
    exact runCycle_map_extends tl st inp st' h
  · intro st inputs st' h
    exact runCycles_map_extends tl inputs st st' h

/-- Witness for C8: an empty-node cycle with one pod leaves the startup state
unchanged. -/
theorem catalog_frame_witness :
    runCycle "c0" (startState "c0") ⟨[], ["p1"]⟩ = some (startState "c0") ∧
    startState "c0" = startState "c0" :=
  ⟨by decide,
   (catalog_frame "c0").1 (startState "c0") ["p1"] (startState "c0") (by decide)⟩

/-! ### Scheduler construction (C9) -/

/-- Initialization status of the six file-scope `boost::shared_ptr` globals
(scheduler_integration.cc:36-41).  A field is `true` when the pointer has
been given an object (via `.reset(new ...)`); a default-constructed
`boost::shared_ptr` is null, i.e. `false`. -/
structure GlobalPtrs where
  job_map_ : Bool
  knowledge_base_ : Bool
  obj_store_ : Bool
  resource_map_ : Bool
  task_map_ : Bool
  topology_manager_ : Bool
deriving DecidableEq, Repr

/-- The globals at program start: all six shared pointers are
default-constructed, hence null. -/
def globalsAtProgramStart : GlobalPtrs :=
  { job_map_ := false, knowledge_base_ := false, obj_store_ := false,
    resource_map_ := false, task_map_ := false, topology_manager_ := false }

/-- The resets performed by `main` before constructing the scheduler
(lines 83-84): `job_map_.reset(new JobMap_t)` and
`resource_map_.reset(new ResourceMap_t)`.  No other global is reset. -/
def globalsAfterReset (g : GlobalPtrs) : GlobalPtrs :=
  { g with job_map_ := true, resource_map_ := true }

/-- Initialization status of each reference handed to the `FlowScheduler`
constructor (lines 94-97), in argument order; the topology root is
`toplevel_res_status->mutable_topology_node()`, initialized on line 86. -/
structure SchedulerCtorArgs where
  job_map_ready : Bool
  resource_map_ready : Bool
  topology_root_ready : Bool
  obj_store_ready : Bool
  task_map_ready : Bool
  knowledge_base_ready : Bool
  topology_manager_ready : Bool
deriving DecidableEq, Repr

/-- The argument status at the moment `FlowScheduler fs(...)` is constructed
in `main`. -/
def flowSchedulerArgs : SchedulerCtorArgs :=
  let g := globalsAfterReset globalsAtProgramStart
  { job_map_ready := g.job_map_
    resource_map_ready := g.resource_map_
    topology_root_ready := true
    obj_store_ready := g.obj_store_
    task_map_ready := g.task_map_
    knowledge_base_ready := g.knowledge_base_
    topology_manager_ready := g.topology_manager_ }

/-- C9 counterexample: it is not the case that each of the seven references
passed to the `FlowScheduler` constructor refers to an object initialized
before the construction — the object store, task map, knowledge base and
topology manager pointers are still the null default-constructed handles. -/
theorem scheduler_ctor_not_all_ready :
    ¬ (flowSchedulerArgs.job_map_ready = true ∧
       flowSchedulerArgs.resource_map_ready = true ∧
       flowSchedulerArgs.topology_root_ready = true ∧
       flowSchedulerArgs.obj_store_ready = true ∧
       flowSchedulerArgs.task_map_ready = true ∧
       flowSchedulerArgs.knowledge_base_ready = true ∧
       flowSchedulerArgs.topology_manager_ready = true) := by
  decide

/-- C9 amended: the `FlowScheduler` construction receives all seven
references, but only the job map, the resource map and the topology root
refer to objects initialized before the construction; the object store, task
map, knowledge base and topology manager references are the uninitialized
(null) default-constructed global handles. -/
theorem scheduler_ctor_ready_status :
    flowSchedulerArgs =
      { job_map_ready := true, resource_map_ready := true,
        topology_root_ready := true, obj_store_ready := false,
        task_map_ready := false, knowledge_base_ready := false,
        topology_manager_ready := false } := by
  decide

/-- C10: addresses are never stored in the catalog.  In every reachable
state, every catalog entry has port `0`; every `MACHINE` entry has the empty
host string and the coordinator entry has host `"localhost"`; and every bind
call in the trace uses an address only as the target taken from the first
node of some cycle's node list (for a pod of that same cycle). -/
theorem address_not_stored (tl : ResourceID) (inputs : List CycleInput)
    (st : LoopState) (hrun : run tl inputs = some st) :
    (∀ kv ∈ st.resource_map,
       kv.2.port = 0 ∧
       (kv.2.descriptor.type = ResourceType.RESOURCE_MACHINE → kv.2.host = "") ∧
       (kv.2.descriptor.type = ResourceType.RESOURCE_COORDINATOR →
          kv.2.host = "localhost")) ∧
    (∀ p a, Event.bindPod p a ∈ st.trace →
       ∃ c ∈ inputs, ∃ n0 ns, c.nodes = n0 :: ns ∧ a = n0.2 ∧ p ∈ c.pods) := by
  have hI := run_inv tl inputs st hrun
  obtain ⟨rest, hm, hrest⟩ := hI.shape
  constructor
  · intro kv hkv
    rw [hm] at hkv
    rcases List.mem_cons.1 hkv with rfl | hr
    · exact ⟨rfl, by simp [coordStatus, ResourceStatus.descriptor], fun _ => rfl⟩
    · rw [(hrest kv hr).2]
      exact ⟨rfl, fun _ => rfl, by simp [machineStatus, ResourceStatus.descriptor]⟩
  · intro p a hmem
    rw [run_eq] at hrun
    rcases runCycles_bind_provenance tl inputs (startState tl) st hrun p a hmem
      with h1 | h2
    · simp [startState] at h1
    · exact h2

/-- Witness for C10 at a one-cycle run with one node and one pod. -/
theorem address_not_stored_witness :
    run "c0" [⟨[("n1", "a1")], ["p1"]⟩] =
      some (LoopState.mk
        [("c0", coordStatus "c0"), ("n1", machineStatus "n1" "c0")]
        [Event.createRes "n1" "c0",
         Event.registerRes (machineStatus "n1" "c0").topology_node,
         Event.bindPod "p1" "a1"]) ∧
    ((∀ kv ∈ (LoopState.mk
        [("c0", coordStatus "c0"), ("n1", machineStatus "n1" "c0")]
        [Event.createRes "n1" "c0",
         Event.registerRes (machineStatus "n1" "c0").topology_node,
         Event.bindPod "p1" "a1"]).resource_map,
       kv.2.port = 0 ∧
       (kv.2.descriptor.type = ResourceType.RESOURCE_MACHINE → kv.2.host = "") ∧
       (kv.2.descriptor.type = ResourceType.RESOURCE_COORDINATOR →
          kv.2.host = "localhost")) ∧
    (∀ p a, Event.bindPod p a ∈ (LoopState.mk
        [("c0", coordStatus "c0"), ("n1", machineStatus "n1" "c0")]
        [Event.createRes "n1" "c0",
         Event.registerRes (machineStatus "n1" "c0").topology_node,
         Event.bindPod "p1" "a1"]).trace →
       ∃ c ∈ [CycleInput.mk [("n1", "a1")] ["p1"]],
         ∃ n0 ns, c.nodes = n0 :: ns ∧ a = n0.2 ∧ p ∈ c.pods)) :=
  ⟨by decide,
   address_not_stored "c0" [⟨[("n1", "a1")], ["p1"]⟩]
     (LoopState.mk
       [("c0", coordStatus "c0"), ("n1", machineStatus "n1" "c0")]
       [Event.createRes "n1" "c0",
        Event.registerRes (machineStatus "n1" "c0").topology_node,
        Event.bindPod "p1" "a1"]) (by decide)⟩
